import Mathlib

/-!
Shallow embedding of the event-stream translation core of the
`ai-sdk-provider-opencode-sdk` repository (file `convert-to-stream-parts` /
`map-opencode-finish-reason`), together with proofs of the specification
claims about it.

Modelling conventions:
* JavaScript strings that carry streamed content (text, deltas, serialized
  tool input, tool output) are modelled as `List Char`; `String.slice(n)`
  becomes `List.drop n`, `String.startsWith` becomes `List.isPrefixOf`,
  `.length` becomes `List.length`.  Identifiers (part ids, call ids, message
  ids, session ids, tool names, finish strings, error names) stay `String`
  since they are only compared for equality and JS truthiness.
* JS truthiness of an optional string is "present and non-empty".
* `Map` objects become functions into `Option`.
* `JSON.stringify(toolState.input)` is modelled by carrying the serialized
  string itself in the tool-state `input` field: the translator only ever
  treats the serialization as an opaque string (prefix tests and slicing).
* Token counts are `Nat` (non-negative integers), costs are `Rat`
  (JS floating point addition modelled exactly).
* Mutation of the `StreamState` record becomes explicit state passing:
  each handler returns the emitted stream parts together with the new state.
-/

namespace Opencode

/-- Message role, from the `Message` interface (`role: "user" | "assistant"`). -/
inductive Role where
  | user
  | assistant
  deriving DecidableEq, Repr

/-- AI SDK finish reasons (`LanguageModelV2FinishReason` /
`LanguageModelV3FinishReason` string unions). -/
inductive FinishReason where
  | stop
  | length
  | toolCalls
  | contentFilter
  | error
  | other
  | unknown
  deriving DecidableEq, Repr

/-- Per-call tool streaming progress (`ToolStreamState` from `types.ts`),
with the four idempotence latches and the last-seen serialized input. -/
structure ToolStreamState where
  callId : String
  toolName : String
  inputStarted : Bool
  inputClosed : Bool
  callEmitted : Bool
  resultEmitted : Bool
  lastInput : Option (List Char)
  deriving DecidableEq, Repr

/-- Running usage accumulators (`StreamingUsage` from `types.ts`). -/
structure StreamingUsage where
  inputTokens : Nat
  outputTokens : Nat
  reasoningTokens : Nat
  cachedInputTokens : Nat
  cachedWriteTokens : Nat
  totalCost : Rat
  deriving DecidableEq, Repr

/-- The per-request tracking structure (`StreamState`). -/
structure StreamState where
  textPartId : Option String
  textStarted : Bool
  reasoningPartId : Option String
  reasoningStarted : Bool
  toolStates : String → Option ToolStreamState
  usage : StreamingUsage
  lastTextContent : List Char
  lastReasoningContent : List Char
  messageRoles : String → Option Role

/-- Tool invocation state (`ToolState` union).  The `input` field carries the
`JSON.stringify` serialization of the input record; `output` and `error` are
`Option` to model the `?? ""` / `?? "Unknown error"` defaulting at the use
sites. -/
inductive ToolState where
  | pending (input : List Char) (raw : List Char)
  | running (input : List Char) (title : Option (List Char)) (timeStart : Nat)
  | completed (input : List Char) (output : Option (List Char)) (title : List Char)
      (timeStart : Nat) (timeEnd : Nat)
  | error (input : List Char) (errorMsg : Option (List Char))
      (timeStart : Nat) (timeEnd : Nat)
  deriving DecidableEq, Repr

/-- Content fragment (`Part` union).  The final constructor is the
unrecognized-extension arm `{ type: string; sessionID; messageID }`. -/
inductive Part where
  | text (id : String) (sessionID : String) (messageID : String)
      (text : List Char) (synthetic : Bool) (ignored : Bool)
  | reasoning (id : String) (sessionID : String) (messageID : String)
      (text : List Char)
  | tool (id : String) (sessionID : String) (messageID : String)
      (callID : String) (toolName : String) (state : ToolState)
  | stepFinish (id : String) (sessionID : String) (messageID : String)
      (reason : String) (cost : Rat) (tokensInput : Nat) (tokensOutput : Nat)
      (tokensReasoning : Nat) (cacheRead : Nat) (cacheWrite : Nat)
  | stepStart (id : String) (sessionID : String) (messageID : String)
  | file (id : String) (sessionID : String) (messageID : String)
      (mime : String) (filename : Option String) (url : String)
  | other (ty : String) (sessionID : String) (messageID : String)
  deriving DecidableEq, Repr

/-- Owning message id of a fragment (`part.messageID`). -/
def Part.messageID : Part → String
  | .text _ _ m _ _ _ => m
  | .reasoning _ _ m _ => m
  | .tool _ _ m _ _ _ => m
  | .stepFinish _ _ m _ _ _ _ _ _ _ => m
  | .stepStart _ _ m => m
  | .file _ _ m _ _ _ => m
  | .other _ _ m => m

/-- Session status variants of a `session.status` event. -/
inductive SessionStatus where
  | idle
  | busy
  | retry (attempt : Nat) (message : List Char) (next : Nat)
  deriving DecidableEq, Repr

/-- Typed inbound events (`OpencodeEvent` union) as seen by the translator.
`messagePartUpdated` carries the optional incremental `delta`. -/
inductive OEvent where
  | messagePartUpdated (part : Part) (delta : Option (List Char))
  | messageUpdated (id : String) (sessionID : String) (role : Role)
      (errorName : Option String) (finish : Option String)
  | sessionStatus (sessionID : String) (status : SessionStatus)
  | sessionIdle (sessionID : String)
  | sessionDiff
  | unknownEvent (ty : String)
  deriving DecidableEq, Repr

/-- Usage payload of the outbound `finish` event (`LanguageModelV3Usage`,
flattened: `inputTokens.{total,noCache,cacheRead,cacheWrite}`,
`outputTokens.{total,text,reasoning}` and the raw total cost). -/
structure LMUsage where
  inputTotal : Nat
  inputNoCache : Nat
  inputCacheRead : Nat
  inputCacheWrite : Nat
  outputTotal : Nat
  outputText : Option Nat
  outputReasoning : Nat
  rawTotalCost : Rat
  deriving DecidableEq, Repr

/-- Outbound stream events (`LanguageModelV3StreamPart`), restricted to the
variants the translator produces. -/
inductive StreamPart where
  | textStart (id : String)
  | textDelta (id : String) (delta : List Char)
  | textEnd (id : String)
  | reasoningStart (id : String)
  | reasoningDelta (id : String) (delta : List Char)
  | reasoningEnd (id : String)
  | toolInputStart (id : String) (toolName : String)
      (providerExecuted : Bool) (dynamic : Bool) (title : Option (List Char))
  | toolInputDelta (id : String) (delta : List Char)
  | toolInputEnd (id : String)
  | toolCall (toolCallId : String) (toolName : String) (input : List Char)
      (providerExecuted : Bool) (dynamic : Bool)
  | toolResult (toolCallId : String) (toolName : String) (result : List Char)
      (isError : Bool) (dynamic : Bool)
  | finish (usage : LMUsage) (finishReason : FinishReason)
      (sessionId : String) (cost : Rat)
  deriving DecidableEq, Repr

/-- JS truthiness of an optional identifier string: present and non-empty. -/
def strOptTruthy : Option String → Bool
  | none => false
  | some s => s ≠ ""

/-- JS truthiness of an optional content string: present and non-empty. -/
def optTruthy : Option (List Char) → Bool
  | none => false
  | some s => !s.isEmpty

/-- Update the tool-progress table at one call id (`state.toolStates.set`). -/
def setToolState (state : StreamState) (callID : String)
    (ss : ToolStreamState) : StreamState :=
  { state with toolStates := fun k => if k = callID then some ss else state.toolStates k }

/-- Initial stream state (`createStreamState`). -/
def createStreamState : StreamState :=
  { textPartId := none
    textStarted := false
    reasoningPartId := none
    reasoningStarted := false
    toolStates := fun _ => none
    usage :=
      { inputTokens := 0
        outputTokens := 0
        reasoningTokens := 0
        cachedInputTokens := 0
        cachedWriteTokens := 0
        totalCost := 0 }
    lastTextContent := []
    lastReasoningContent := []
    messageRoles := fun _ => none }

/-- Handle a text part update (`handleTextPart`). -/
def handleTextPart (partId : String) (text : List Char)
    (delta : Option (List Char)) (state : StreamState) :
    List StreamPart × StreamState :=
  let startStep : List StreamPart × StreamState :=
    if state.textStarted = false ∨ state.textPartId ≠ some partId then
      let endParts :=
        if state.textStarted = true ∧ strOptTruthy state.textPartId = true ∧
            state.textPartId ≠ some partId then
          [StreamPart.textEnd (state.textPartId.getD "")]
        else []
      (endParts ++ [StreamPart.textStart partId],
        { state with
            textStarted := true
            textPartId := some partId
            lastTextContent := [] })
    else ([], state)
  let state1 := startStep.2
  let deltaStep : List StreamPart × StreamState :=
    if optTruthy delta = true then
      let d := delta.getD []
      ([StreamPart.textDelta partId d],
        { state1 with lastTextContent := state1.lastTextContent ++ d })
    else if text ≠ [] ∧ text ≠ state1.lastTextContent then
      let newDelta := text.drop state1.lastTextContent.length
      if newDelta ≠ [] then
        ([StreamPart.textDelta partId newDelta],
          { state1 with lastTextContent := text })
      else ([], state1)
    else ([], state1)
  (startStep.1 ++ deltaStep.1, deltaStep.2)

/-- Handle a reasoning part update (`handleReasoningPart`). -/
def handleReasoningPart (partId : String) (text : List Char)
    (delta : Option (List Char)) (state : StreamState) :
    List StreamPart × StreamState :=
  let startStep : List StreamPart × StreamState :=
    if state.reasoningStarted = false ∨ state.reasoningPartId ≠ some partId then
      let endParts :=
        if state.reasoningStarted = true ∧ strOptTruthy state.reasoningPartId = true ∧
            state.reasoningPartId ≠ some partId then
          [StreamPart.reasoningEnd (state.reasoningPartId.getD "")]
        else []
      (endParts ++ [StreamPart.reasoningStart partId],
        { state with
            reasoningStarted := true
            reasoningPartId := some partId
            lastReasoningContent := [] })
    else ([], state)
  let state1 := startStep.2
  let deltaStep : List StreamPart × StreamState :=
    if optTruthy delta = true then
      let d := delta.getD []
      ([StreamPart.reasoningDelta partId d],
        { state1 with lastReasoningContent := state1.lastReasoningContent ++ d })
    else if text ≠ [] ∧ text ≠ state1.lastReasoningContent then
      let newDelta := text.drop state1.lastReasoningContent.length
      if newDelta ≠ [] then
        ([StreamPart.reasoningDelta partId newDelta],
          { state1 with lastReasoningContent := text })
      else ([], state1)
    else ([], state1)
  (startStep.1 ++ deltaStep.1, deltaStep.2)

/-- Handle a tool part update (`handleToolPart`).  The tool-progress entry is
fetched or freshly created, mutated along the status branch, and stored back
into the table (the source stores the object once and mutates it in place;
storing the final value is observationally the same). -/
def handleToolPart (callID : String) (toolName : String) (toolState : ToolState)
    (state : StreamState) : List StreamPart × StreamState :=
  let streamState : ToolStreamState :=
    match state.toolStates callID with
    | some s => s
    | none =>
      { callId := callID
        toolName := toolName
        inputStarted := false
        inputClosed := false
        callEmitted := false
        resultEmitted := false
        lastInput := none }
  match toolState with
  | .pending _ _ =>
    if streamState.inputStarted = false then
      ([StreamPart.toolInputStart callID toolName true true none],
        setToolState state callID { streamState with inputStarted := true })
    else ([], setToolState state callID streamState)
  | .running input title _ =>
    let startStep : List StreamPart × ToolStreamState :=
      if streamState.inputStarted = false then
        ([StreamPart.toolInputStart callID toolName true true
            (if optTruthy title = true then title else none)],
          { streamState with inputStarted := true })
      else ([], streamState)
    let ss1 := startStep.2
    let inputStr := input
    let deltaParts : List StreamPart :=
      if optTruthy ss1.lastInput = true ∧
          (ss1.lastInput.getD []).isPrefixOf inputStr = true then
        let inputDelta := inputStr.drop (ss1.lastInput.getD []).length
        if inputDelta ≠ [] then [StreamPart.toolInputDelta callID inputDelta]
        else []
      else []
    (startStep.1 ++ deltaParts,
      setToolState state callID { ss1 with lastInput := some inputStr })
  | .completed input output _ _ _ =>
    let closeStep : List StreamPart × ToolStreamState :=
      if streamState.inputClosed = false then
        let openStep : List StreamPart × ToolStreamState :=
          if streamState.inputStarted = false then
            ([StreamPart.toolInputStart callID toolName true true none],
              { streamState with inputStarted := true })
          else ([], streamState)
        (openStep.1 ++ [StreamPart.toolInputEnd callID],
          { openStep.2 with inputClosed := true })
      else ([], streamState)
    let callStep : List StreamPart × ToolStreamState :=
      if closeStep.2.callEmitted = false then
        ([StreamPart.toolCall callID toolName input true true],
          { closeStep.2 with callEmitted := true })
      else ([], closeStep.2)
    let resultStep : List StreamPart × ToolStreamState :=
      if callStep.2.resultEmitted = false then
        ([StreamPart.toolResult callID toolName (output.getD []) false true],
          { callStep.2 with resultEmitted := true })
      else ([], callStep.2)
    (closeStep.1 ++ callStep.1 ++ resultStep.1,
      setToolState state callID resultStep.2)
  | .error input errorMsg _ _ =>
    let closeStep : List StreamPart × ToolStreamState :=
      if streamState.inputClosed = false then
        let openStep : List StreamPart × ToolStreamState :=
          if streamState.inputStarted = false then
            ([StreamPart.toolInputStart callID toolName true true none],
              { streamState with inputStarted := true })
          else ([], streamState)
        (openStep.1 ++ [StreamPart.toolInputEnd callID],
          { openStep.2 with inputClosed := true })
      else ([], streamState)
    let callStep : List StreamPart × ToolStreamState :=
      if closeStep.2.callEmitted = false then
        ([StreamPart.toolCall callID toolName input true true],
          { closeStep.2 with callEmitted := true })
      else ([], closeStep.2)
    let resultStep : List StreamPart × ToolStreamState :=
      if callStep.2.resultEmitted = false then
        ([StreamPart.toolResult callID toolName
            (errorMsg.getD ("Unknown error".toList)) true true],
          { callStep.2 with resultEmitted := true })
      else ([], callStep.2)
    (closeStep.1 ++ callStep.1 ++ resultStep.1,
      setToolState state callID resultStep.2)

/-- Handle a step-finish part: accumulate usage (`handleStepFinishPart`). -/
def handleStepFinishPart (cost : Rat) (tokensInput tokensOutput tokensReasoning
    cacheRead cacheWrite : Nat) (state : StreamState) : StreamState :=
  { state with
      usage :=
        { inputTokens := state.usage.inputTokens + tokensInput
          outputTokens := state.usage.outputTokens + tokensOutput
          reasoningTokens := state.usage.reasoningTokens + tokensReasoning
          cachedInputTokens := state.usage.cachedInputTokens + cacheRead
          cachedWriteTokens := state.usage.cachedWriteTokens + cacheWrite
          totalCost := state.usage.totalCost + cost } }

/-- Handle a file part (`handleFilePart`): file parts are skipped. -/
def handleFilePart (_mime : String) (_filename : Option String)
    (_url : String) : List StreamPart :=
  []

/-- Handle a `message.part.updated` event (`handlePartUpdated`): suppress
fragments of user-role messages, then dispatch on the fragment kind. -/
def handlePartUpdated (part : Part) (delta : Option (List Char))
    (state : StreamState) : List StreamPart × StreamState :=
  if state.messageRoles part.messageID = some Role.user then ([], state)
  else
    match part with
    | .text id _ _ text synthetic ignored =>
      if synthetic = true ∨ ignored = true then ([], state)
      else handleTextPart id text delta state
    | .reasoning id _ _ text => handleReasoningPart id text delta state
    | .tool _ _ _ callID toolName toolState =>
      handleToolPart callID toolName toolState state
    | .stepFinish _ _ _ _ cost tIn tOut tReasoning cRead cWrite =>
      ([], handleStepFinishPart cost tIn tOut tReasoning cRead cWrite state)
    | .stepStart _ _ _ => ([], state)
    | .file _ _ _ mime filename url => (handleFilePart mime filename url, state)
    | .other _ _ _ => ([], state)

/-- Convert one inbound event to outbound stream parts
(`convertEventToStreamParts`). -/
def convertEventToStreamParts (event : OEvent) (state : StreamState) :
    List StreamPart × StreamState :=
  match event with
  | .messagePartUpdated part delta => handlePartUpdated part delta state
  | .messageUpdated id _ role _ _ =>
    ([], { state with
            messageRoles := fun k =>
              if k = id then some role else state.messageRoles k })
  | .sessionStatus _ _ => ([], state)
  | .sessionIdle _ => ([], state)
  | .sessionDiff => ([], state)
  | .unknownEvent _ => ([], state)

/-- Thread a whole inbound event sequence through the translator. -/
def convertEvents (events : List OEvent) (state : StreamState) :
    List StreamPart × StreamState :=
  match events with
  | [] => ([], state)
  | e :: es =>
    let step := convertEventToStreamParts e state
    let rest := convertEvents es step.2
    (step.1 ++ rest.1, rest.2)

/-- Create the final stream parts that close out the stream
(`createFinishParts`). -/
def createFinishParts (state : StreamState) (finishReason : FinishReason)
    (sessionId : String) : List StreamPart :=
  let inputTokensTotal :=
    state.usage.inputTokens + state.usage.cachedInputTokens +
      state.usage.cachedWriteTokens
  let usage : LMUsage :=
    { inputTotal := inputTokensTotal
      inputNoCache := state.usage.inputTokens
      inputCacheRead := state.usage.cachedInputTokens
      inputCacheWrite := state.usage.cachedWriteTokens
      outputTotal := state.usage.outputTokens
      outputText := none
      outputReasoning := state.usage.reasoningTokens
      rawTotalCost := state.usage.totalCost }
  let closeText :=
    if state.textStarted = true ∧ strOptTruthy state.textPartId = true then
      [StreamPart.textEnd (state.textPartId.getD "")]
    else []
  let closeReasoning :=
    if state.reasoningStarted = true ∧ strOptTruthy state.reasoningPartId = true then
      [StreamPart.reasoningEnd (state.reasoningPartId.getD "")]
    else []
  closeText ++ closeReasoning ++
    [StreamPart.finish usage finishReason sessionId state.usage.totalCost]

/-! ## Finish-reason classifier (`map-opencode-finish-reason.ts`) -/

/-- Terminal-message error descriptor (`MessageInfo.error`). -/
structure MessageError where
  name : String
  deriving DecidableEq, Repr

/-- Terminal-message descriptor (`MessageInfo`). -/
structure MessageInfo where
  error : Option MessageError
  finish : Option String
  deriving DecidableEq, Repr

/-- Map an error to a finish reason (`mapErrorToFinishReason`). -/
def mapErrorToFinishReason (e : MessageError) : FinishReason :=
  match e.name with
  | "MessageAbortedError" => .stop
  | "MessageOutputLengthError" => .length
  | "ProviderAuthError" => .error
  | "APIError" => .error
  | "UnknownError" => .error
  | _ => .error

/-- JS `toLowerCase`, modelled as the ASCII case mapping applied to each
character (the source only compares the result against ASCII keywords). -/
def toLowerStr (s : String) : String :=
  ⟨s.data.map Char.toLower⟩

/-- Map a finish string to a finish reason (`mapFinishToReason`). -/
def mapFinishToReason (finish : String) : FinishReason :=
  let normalizedFinish := toLowerStr finish
  if normalizedFinish = "end_turn" ∨ normalizedFinish = "stop" ∨
      normalizedFinish = "end" then .stop
  else if normalizedFinish = "max_tokens" ∨ normalizedFinish = "length" then
    .length
  else if normalizedFinish = "tool_use" ∨ normalizedFinish = "tool_calls" then
    .toolCalls
  else if normalizedFinish = "content_filter" ∨ normalizedFinish = "safety" then
    .contentFilter
  else if normalizedFinish = "error" then .error
  else .stop

/-- Map an OpenCode message descriptor to an AI SDK finish reason
(`mapOpencodeFinishReason`).  The `if (message.finish)` truthiness test means
an empty finish string falls through to the `stop` default. -/
def mapOpencodeFinishReason (message : Option MessageInfo) : FinishReason :=
  match message with
  | none => .unknown
  | some m =>
    match m.error with
    | some e => mapErrorToFinishReason e
    | none =>
      match m.finish with
      | some f => if f ≠ "" then mapFinishToReason f else .stop
      | none => .stop

/-! ## Session correlator (`isEventForSession` / `isSessionComplete`)

These two functions perform dynamic shape checks on values the transport
delivers, so they are embedded over a JSON-like value universe (including
`undefined`), with JavaScript member access and the `in` operator modelled
in an exception monad: `Except.error ()` stands for a thrown `TypeError`. -/

/-- JavaScript-like values: `undefined`, `null`, primitives, arrays and
objects (field lists, first binding wins on lookup). -/
inductive Json where
  | undefined
  | null
  | bool (b : Bool)
  | num (n : Int)
  | str (s : String)
  | arr (elems : List Json)
  | obj (fields : List (String × Json))

/-- JS property access `base[key]`: throws a TypeError when the base is
`null` or `undefined`; yields `undefined` for a missing key or a primitive
base (built-in prototype properties are never named like the keys the
correlator reads, so they are not modelled). -/
def jsGet (base : Json) (key : String) : Except Unit Json :=
  match base with
  | .undefined => .error ()
  | .null => .error ()
  | .obj fields => .ok ((fields.lookup key).getD .undefined)
  | _ => .ok .undefined

/-- JS `key in base`: key-presence test on objects, TypeError on
non-objects.  Arrays only own numeric keys, none of which the correlator
ever queries. -/
def jsIn (key : String) (base : Json) : Except Unit Bool :=
  match base with
  | .obj fields => .ok (fields.any fun kv => kv.1 = key)
  | .arr _ => .ok false
  | _ => .error ()

/-- JS test `typeof v === "object" && v !== null`. -/
def jsIsObjectNonNull (v : Json) : Bool :=
  match v with
  | .obj _ => true
  | .arr _ => true
  | _ => false

/-- JS strict equality of a value against a string. -/
def jsStrictEqStr (v : Json) (s : String) : Bool :=
  match v with
  | .str t => t = s
  | _ => false

/-- Body of `isEventForSession` once `event.properties` has been checked to
be a non-null object: the three guarded session-attribution checks (nested
`part`, nested `info`, direct `sessionID`), first match wins, no match means
`false`. -/
def sessionPropsCheck (props : Json) (sessionId : String) : Except Unit Bool := do
  let hasPart ← jsIn "part" props
  let partIsObj ←
    if hasPart = true then do
      let part ← jsGet props "part"
      pure (jsIsObjectNonNull part)
    else pure false
  if partIsObj = true then
    let part ← jsGet props "part"
    let sid ← jsGet part "sessionID"
    return jsStrictEqStr sid sessionId
  else
    let hasInfo ← jsIn "info" props
    let infoIsObj ←
      if hasInfo = true then do
        let info ← jsGet props "info"
        pure (jsIsObjectNonNull info)
      else pure false
    if infoIsObj = true then
      let info ← jsGet props "info"
      let sid ← jsGet info "sessionID"
      return jsStrictEqStr sid sessionId
    else
      let hasSid ← jsIn "sessionID" props
      if hasSid = true then
        let sid ← jsGet props "sessionID"
        return jsStrictEqStr sid sessionId
      else return false

/-- Check whether an event belongs to a session (`isEventForSession`). -/
def isEventForSession (event : Json) (sessionId : String) : Except Unit Bool := do
  let hasProps ← jsIn "properties" event
  if hasProps = true then
    let props ← jsGet event "properties"
    if jsIsObjectNonNull props = true then sessionPropsCheck props sessionId
    else return false
  else return false

/-- Check whether an event signals session completion (`isSessionComplete`).
The source casts the event to the narrow shape and dereferences
`properties.sessionID` / `properties.status.type` without guards, so those
accesses may throw. -/
def isSessionComplete (event : Json) (sessionId : String) : Except Unit Bool := do
  let ty ← jsGet event "type"
  if jsStrictEqStr ty "session.status" = true then
    let props ← jsGet event "properties"
    let sid ← jsGet props "sessionID"
    if jsStrictEqStr sid sessionId = true then
      let status ← jsGet props "status"
      let statusTy ← jsGet status "type"
      return jsStrictEqStr statusTy "idle"
    else return false
  else
    let ty2 ← jsGet event "type"
    if jsStrictEqStr ty2 "session.idle" = true then
      let props ← jsGet event "properties"
      let sid ← jsGet props "sessionID"
      return jsStrictEqStr sid sessionId
    else return false

/-! ## Specification-side checkers

Definitions in this section formalize the *claims* (span scanners, delta
concatenation, event counting); they are compared against the source-derived
definitions above. -/

/-- Span scanner: walks an outbound event list carrying the currently open
text span id and reasoning span id.  Returns `none` as soon as span
well-formedness is violated: a `*-delta` or `*-end` without a matching
unmatched `*-start` of the same id, a `*-start` while a span of the same
kind is open, or a `finish` while any span is open. -/
def scanSpans (openText openReasoning : Option String) :
    List StreamPart → Option (Option String × Option String)
  | [] => some (openText, openReasoning)
  | p :: ps =>
    match p with
    | .textStart id =>
      if openText = none then scanSpans (some id) openReasoning ps else none
    | .textDelta id _ =>
      if openText = some id then scanSpans openText openReasoning ps else none
    | .textEnd id =>
      if openText = some id then scanSpans none openReasoning ps else none
    | .reasoningStart id =>
      if openReasoning = none then scanSpans openText (some id) ps else none
    | .reasoningDelta id _ =>
      if openReasoning = some id then scanSpans openText openReasoning ps else none
    | .reasoningEnd id =>
      if openReasoning = some id then scanSpans openText none ps else none
    | .finish _ _ _ _ =>
      if openText = none ∧ openReasoning = none then
        scanSpans openText openReasoning ps
      else none
    | _ => scanSpans openText openReasoning ps

/-- Concatenation of all text-delta payloads in an outbound event list. -/
def concatTextDeltas : List StreamPart → List Char
  | [] => []
  | .textDelta _ d :: ps => d ++ concatTextDeltas ps
  | _ :: ps => concatTextDeltas ps

/-- Concatenation of all reasoning-delta payloads in an outbound event list. -/
def concatReasoningDeltas : List StreamPart → List Char
  | [] => []
  | .reasoningDelta _ d :: ps => d ++ concatReasoningDeltas ps
  | _ :: ps => concatReasoningDeltas ps

/-- Number of `tool-call` events in an outbound event list. -/
def countToolCalls (l : List StreamPart) : Nat :=
  l.countP fun p => match p with | .toolCall _ _ _ _ _ => true | _ => false

/-- Number of `tool-result` events in an outbound event list. -/
def countToolResults (l : List StreamPart) : Nat :=
  l.countP fun p => match p with | .toolResult _ _ _ _ _ => true | _ => false

/-- The `tool-input-delta` events of an outbound event list. -/
def filterToolInputDeltas (l : List StreamPart) : List StreamPart :=
  l.filter fun p => match p with | .toolInputDelta _ _ => true | _ => false

/-- A tool state is terminal when it is `completed` or `error`. -/
def ToolState.isTerminal : ToolState → Bool
  | .completed _ _ _ _ _ => true
  | .error _ _ _ _ => true
  | _ => false

/-- Every text/reasoning/tool-input delta in the list is non-empty. -/
def noEmptyDeltas (l : List StreamPart) : Bool :=
  l.all fun p =>
    match p with
    | .textDelta _ d => d ≠ []
    | .reasoningDelta _ d => d ≠ []
    | .toolInputDelta _ d => d ≠ []
    | _ => true

/-- An inbound event has good ids when any text or reasoning fragment it
carries has a non-empty fragment id. -/
def eventHasGoodIds : OEvent → Bool
  | .messagePartUpdated (.text id _ _ _ _ _) _ => id ≠ ""
  | .messagePartUpdated (.reasoning id _ _ _) _ => id ≠ ""
  | _ => true

/-- The open spans a stream state denotes: a span counts as open when its
started flag is set, under the id recorded for it. -/
def spanView (s : StreamState) : Option String × Option String :=
  ((if s.textStarted = true then s.textPartId else none),
   (if s.reasoningStarted = true then s.reasoningPartId else none))

/-- Stream-state health for the span argument: a started span records a
non-empty id. -/
def stateGood (s : StreamState) : Prop :=
  (s.textStarted = true → ∃ id, s.textPartId = some id ∧ id ≠ "") ∧
  (s.reasoningStarted = true → ∃ id, s.reasoningPartId = some id ∧ id ≠ "")


/-- Stream parts that do not affect span well-formedness (tool and input
events); the scanner passes over them. -/
def spanNeutral : StreamPart → Bool
  | .textStart _ => false
  | .textDelta _ _ => false
  | .textEnd _ => false
  | .reasoningStart _ => false
  | .reasoningDelta _ _ => false
  | .reasoningEnd _ => false
  | .finish _ _ _ _ => false
  | _ => true

/-- Token/cost payload of one step-accounting fragment. -/
structure StepTokens where
  cost : Rat
  input : Nat
  output : Nat
  reasoning : Nat
  cacheRead : Nat
  cacheWrite : Nat
  deriving DecidableEq, Repr

/-- The inbound event carrying one step-accounting fragment. -/
def stepEvent (t : StepTokens) : OEvent :=
  .messagePartUpdated
    (.stepFinish "sp" "ses" "msg" "tool_use" t.cost t.input t.output
      t.reasoning t.cacheRead t.cacheWrite) none

/-- The finish-reason classification exactly as the specification words it:
absent descriptor to unknown; error name (case-sensitively) with abort to
stop and output-length to length and all else to error, taking precedence
over finish; otherwise the finish string case-insensitively through the
table, with stop as permissive default, also when neither field is present. -/
def finishClassificationSpec (message : Option MessageInfo) : FinishReason :=
  match message with
  | none => .unknown
  | some m =>
    match m.error with
    | some e =>
      if e.name = "MessageAbortedError" then .stop
      else if e.name = "MessageOutputLengthError" then .length
      else .error
    | none =>
      match m.finish with
      | none => .stop
      | some f =>
        let n := toLowerStr f
        if n ∈ ["end_turn", "stop", "end"] then .stop
        else if n ∈ ["max_tokens", "length"] then .length
        else if n ∈ ["tool_use", "tool_calls"] then .toolCalls
        else if n ∈ ["content_filter", "safety"] then .contentFilter
        else if n = "error" then .error
        else .stop

/-! ## Helper lemmas -/

/-- The error-name classifier as an if-chain over the error name. -/
lemma mapErrorToFinishReason_eq (e : MessageError) :
    mapErrorToFinishReason e =
      (if e.name = "MessageAbortedError" then .stop
       else if e.name = "MessageOutputLengthError" then .length
       else .error) := by
  unfold mapErrorToFinishReason
  split <;> simp_all


lemma optTruthy_true {o : Option (List Char)} (h : optTruthy o = true) :
    ∃ s, o = some s ∧ s ≠ [] := by
  cases o with
  | none => simp [optTruthy] at h
  | some s =>
    refine ⟨s, rfl, ?_⟩
    simpa [optTruthy] using h

lemma noEmptyDeltas_append (a b : List StreamPart) :
    noEmptyDeltas (a ++ b) = (noEmptyDeltas a && noEmptyDeltas b) := by
  simp [noEmptyDeltas, List.all_append]

lemma noEmptyDeltas_handleTextPart (id : String) (text : List Char)
    (delta : Option (List Char)) (st : StreamState) :
    noEmptyDeltas (handleTextPart id text delta st).1 = true := by
  rcases delta with _ | d <;>
    · simp only [handleTextPart]
      split_ifs <;> simp_all [noEmptyDeltas, optTruthy]

lemma noEmptyDeltas_handleReasoningPart (id : String) (text : List Char)
    (delta : Option (List Char)) (st : StreamState) :
    noEmptyDeltas (handleReasoningPart id text delta st).1 = true := by
  rcases delta with _ | d <;>
    · simp only [handleReasoningPart]
      split_ifs <;> simp_all [noEmptyDeltas, optTruthy]

lemma noEmptyDeltas_handleToolPart (callID toolName : String) (ts : ToolState)
    (st : StreamState) :
    noEmptyDeltas (handleToolPart callID toolName ts st).1 = true := by
  rcases hts : st.toolStates callID with _ | ss <;>
    cases ts <;>
      · simp only [handleToolPart, hts]
        split_ifs <;> simp_all [noEmptyDeltas]

lemma noEmptyDeltas_convert (e : OEvent) (state : StreamState) :
    noEmptyDeltas (convertEventToStreamParts e state).1 = true := by
  cases e with
  | messagePartUpdated part delta =>
    cases part with
    | text id s m t syn ign =>
      simp only [convertEventToStreamParts, handlePartUpdated]
      split_ifs
      · rfl
      · rfl
      · exact noEmptyDeltas_handleTextPart id t delta state
    | reasoning id s m t =>
      simp only [convertEventToStreamParts, handlePartUpdated]
      split_ifs
      · rfl
      · exact noEmptyDeltas_handleReasoningPart id t delta state
    | tool i s m callID toolName ts =>
      simp only [convertEventToStreamParts, handlePartUpdated]
      split_ifs
      · rfl
      · exact noEmptyDeltas_handleToolPart callID toolName ts state
    | stepFinish i s m r c a b cc d ee =>
      simp only [convertEventToStreamParts, handlePartUpdated]
      split_ifs <;> rfl
    | stepStart i s m =>
      simp only [convertEventToStreamParts, handlePartUpdated]
      split_ifs <;> rfl
    | file i s m mi f u =>
      simp only [convertEventToStreamParts, handlePartUpdated]
      split_ifs <;> rfl
    | other t s m =>
      simp only [convertEventToStreamParts, handlePartUpdated]
      split_ifs <;> rfl
  | messageUpdated id s role en f => rfl
  | sessionStatus s st2 => rfl
  | sessionIdle s => rfl
  | sessionDiff => rfl
  | unknownEvent t => rfl


lemma jsGet_obj (fields : List (String × Json)) (k : String) :
    jsGet (.obj fields) k = Except.ok ((fields.lookup k).getD .undefined) := rfl

lemma jsIn_obj (fields : List (String × Json)) (k : String) :
    jsIn k (.obj fields) = Except.ok (fields.any fun kv => kv.1 = k) := rfl

lemma jsGet_objLike {v : Json} (h : jsIsObjectNonNull v = true) (k : String) :
    ∃ j, jsGet v k = Except.ok j := by
  cases v <;> simp_all [jsIsObjectNonNull, jsGet]

lemma sessionPropsCheck_total (props : Json) (h : jsIsObjectNonNull props = true)
    (sessionId : String) :
    ∃ b, sessionPropsCheck props sessionId = Except.ok b := by
  cases props
  case arr elems => exact ⟨false, rfl⟩
  case obj pfields =>
    simp only [sessionPropsCheck, jsIn_obj, jsGet_obj, Bind.bind, Except.bind,
      pure, Except.pure]
    by_cases h1 : (pfields.any fun kv => kv.1 = "part") = true
    · simp only [h1, if_true]
      by_cases h2 : jsIsObjectNonNull ((pfields.lookup "part").getD .undefined) = true
      · simp only [h2, if_true]
        obtain ⟨j, hj⟩ := jsGet_objLike h2 "sessionID"
        rw [hj]
        exact ⟨_, rfl⟩
      · simp only [h2, if_false]
        by_cases h3 : (pfields.any fun kv => kv.1 = "info") = true
        · simp only [h3, if_true]
          by_cases h4 : jsIsObjectNonNull ((pfields.lookup "info").getD .undefined) = true
          · simp only [h4, if_true]
            obtain ⟨j, hj⟩ := jsGet_objLike h4 "sessionID"
            rw [hj]
            exact ⟨_, rfl⟩
          · simp only [h4, if_false]
            by_cases h5 : (pfields.any fun kv => kv.1 = "sessionID") = true
            · simp only [h5, if_true]
              exact ⟨_, rfl⟩
            · simp only [h5, if_false]
              exact ⟨_, rfl⟩
        · simp only [h3, if_false]
          by_cases h5 : (pfields.any fun kv => kv.1 = "sessionID") = true
          · simp only [h5, if_true]
            exact ⟨_, rfl⟩
          · simp only [h5, if_false]
            exact ⟨_, rfl⟩
    · simp only [h1, if_false]
      by_cases h3 : (pfields.any fun kv => kv.1 = "info") = true
      · simp only [h3, if_true]
        by_cases h4 : jsIsObjectNonNull ((pfields.lookup "info").getD .undefined) = true
        · simp only [h4, if_true]
          obtain ⟨j, hj⟩ := jsGet_objLike h4 "sessionID"
          rw [hj]
          exact ⟨_, rfl⟩
        · simp only [h4, if_false]
          by_cases h5 : (pfields.any fun kv => kv.1 = "sessionID") = true
          · simp only [h5, if_true]
            exact ⟨_, rfl⟩
          · simp only [h5, if_false]
            exact ⟨_, rfl⟩
      · simp only [h3, if_false]
        by_cases h5 : (pfields.any fun kv => kv.1 = "sessionID") = true
        · simp only [h5, if_true]
          exact ⟨_, rfl⟩
        · simp only [h5, if_false]
          exact ⟨_, rfl⟩
  all_goals simp_all [jsIsObjectNonNull]

lemma isEventForSession_obj_total (fields : List (String × Json)) (sessionId : String) :
    ∃ b, isEventForSession (.obj fields) sessionId = Except.ok b := by
  simp only [isEventForSession, jsIn_obj, jsGet_obj, Bind.bind, Except.bind]
  by_cases h0 : (fields.any fun kv => kv.1 = "properties") = true
  · simp only [h0, if_true]
    by_cases h1 : jsIsObjectNonNull ((fields.lookup "properties").getD .undefined) = true
    · simp only [h1, if_true]
      exact sessionPropsCheck_total _ h1 sessionId
    · simp only [h1, if_false]
      exact ⟨false, rfl⟩
  · simp only [h0, if_false]
    exact ⟨false, rfl⟩


lemma setToolState_lookup (st : StreamState) (c : String) (ss : ToolStreamState) :
    (setToolState st c ss).toolStates c = some ss := by
  simp [setToolState]

lemma handleToolPart_messageRoles (c n : String) (ts : ToolState) (st : StreamState) :
    (handleToolPart c n ts st).2.messageRoles = st.messageRoles := by
  rcases hts : st.toolStates c with _ | ss <;>
    cases ts <;> simp only [handleToolPart, hts] <;> split_ifs <;> rfl

lemma handleToolPart_counts (c n : String) (ts : ToolState) (st : StreamState) :
    countToolCalls (handleToolPart c n ts st).1 ≤ 1 ∧
    countToolResults (handleToolPart c n ts st).1 ≤ 1 := by
  rcases hts : st.toolStates c with _ | ss <;>
    cases ts <;> simp only [handleToolPart, hts] <;> split_ifs <;>
      simp_all [countToolCalls, countToolResults, List.countP_cons, List.countP_append]

lemma handleToolPart_terminal_sets (c n : String) (ts : ToolState) (st : StreamState)
    (hterm : ts.isTerminal = true) :
    ∃ ss', (handleToolPart c n ts st).2.toolStates c = some ss' ∧
      ss'.inputClosed = true ∧ ss'.callEmitted = true ∧ ss'.resultEmitted = true := by
  rcases hts : st.toolStates c with _ | ss <;>
    cases ts <;> simp only [ToolState.isTerminal] at hterm <;>
      simp only [handleToolPart, hts] <;> split_ifs <;>
        exact ⟨_, setToolState_lookup _ _ _, by simp_all, by simp_all, by simp_all⟩

lemma handleToolPart_terminal_latched (c n : String) (ts : ToolState) (st : StreamState)
    (ss : ToolStreamState) (hterm : ts.isTerminal = true)
    (hss : st.toolStates c = some ss) (h1 : ss.inputClosed = true)
    (h2 : ss.callEmitted = true) (h3 : ss.resultEmitted = true) :
    (handleToolPart c n ts st).1 = [] := by
  cases ts <;> simp only [ToolState.isTerminal] at hterm <;>
    simp only [handleToolPart, hss] <;> split_ifs <;> simp_all


lemma convert_steps (steps : List StepTokens) (s : StreamState)
    (hrole : s.messageRoles "msg" = none) :
    convertEvents (steps.map stepEvent) s =
      ([], { s with
              usage :=
                { inputTokens := s.usage.inputTokens + (steps.map StepTokens.input).sum
                  outputTokens := s.usage.outputTokens + (steps.map StepTokens.output).sum
                  reasoningTokens :=
                    s.usage.reasoningTokens + (steps.map StepTokens.reasoning).sum
                  cachedInputTokens :=
                    s.usage.cachedInputTokens + (steps.map StepTokens.cacheRead).sum
                  cachedWriteTokens :=
                    s.usage.cachedWriteTokens + (steps.map StepTokens.cacheWrite).sum
                  totalCost := s.usage.totalCost + (steps.map StepTokens.cost).sum } }) := by
  induction steps generalizing s with
  | nil => simp [convertEvents]
  | cons a rest ih =>
    have hstep : convertEventToStreamParts (stepEvent a) s =
        ([], handleStepFinishPart a.cost a.input a.output a.reasoning a.cacheRead
          a.cacheWrite s) := by
      simp [convertEventToStreamParts, handlePartUpdated, stepEvent, Part.messageID, hrole]
    have hrole2 : (handleStepFinishPart a.cost a.input a.output a.reasoning a.cacheRead
        a.cacheWrite s).messageRoles "msg" = none := hrole
    simp only [List.map_cons, convertEvents, hstep, ih _ hrole2, List.nil_append]
    simp [handleStepFinishPart, List.sum_cons, Nat.add_assoc, add_assoc]


lemma concatTextDeltas_append (a b : List StreamPart) :
    concatTextDeltas (a ++ b) = concatTextDeltas a ++ concatTextDeltas b := by
  induction a with
  | nil => rfl
  | cons p ps ih => cases p <;> simp [concatTextDeltas, ih]

lemma handleTextPart_snapshot_step (id : String) (s : List Char) (st : StreamState)
    (h1 : st.textStarted = true) (h2 : st.textPartId = some id)
    (hpre : st.lastTextContent <+: s) :
    handleTextPart id s none st =
      ((if s = st.lastTextContent then []
        else [StreamPart.textDelta id (s.drop st.lastTextContent.length)]),
       { st with lastTextContent := s }) := by
  have hne : ¬ (st.textStarted = false ∨ st.textPartId ≠ some id) := by simp [h1, h2]
  simp only [handleTextPart, if_neg hne, optTruthy, Bool.false_eq_true, if_false]
  by_cases heq : s = st.lastTextContent
  · subst heq
    simp
  · have hsne : s ≠ [] := by
      rintro rfl
      exact heq (List.prefix_nil.mp hpre).symm
    obtain ⟨u, hu⟩ := hpre
    have hdrop : s.drop st.lastTextContent.length = u := by
      rw [← hu, List.drop_left]
    have hune : u ≠ [] := by
      rintro rfl
      simp at hu
      exact heq hu.symm
    simp [heq, hsne, hdrop, hune]

lemma handleTextPart_fresh (id : String) (s : List Char) (st : StreamState)
    (h1 : st.textStarted = false) :
    handleTextPart id s none st =
      ([StreamPart.textStart id] ++ (if s = [] then [] else [StreamPart.textDelta id s]),
       { st with textStarted := true, textPartId := some id, lastTextContent := s }) := by
  have hc : st.textStarted = false ∨ st.textPartId ≠ some id := Or.inl h1
  have hnend : ¬ (st.textStarted = true ∧ strOptTruthy st.textPartId = true ∧
      st.textPartId ≠ some id) := by simp [h1]
  simp only [handleTextPart, if_pos hc, if_neg hnend, optTruthy, Bool.false_eq_true, if_false]
  by_cases hs : s = []
  · subst hs; simp
  · simp [hs, List.drop_zero]

lemma convert_text_chain (id sid mid : String) (ss : List (List Char)) (st : StreamState)
    (h1 : st.textStarted = true) (h2 : st.textPartId = some id)
    (hrole : st.messageRoles mid ≠ some Role.user)
    (hchain : List.Chain' (· <+: ·) (st.lastTextContent :: ss)) :
    st.lastTextContent ++
        concatTextDeltas (convertEvents (ss.map fun s =>
          OEvent.messagePartUpdated (.text id sid mid s false false) none) st).1 =
      ss.getLastD st.lastTextContent := by
  induction ss generalizing st with
  | nil => simp [convertEvents, concatTextDeltas]
  | cons s1 rest ih =>
    have hpre : st.lastTextContent <+: s1 := (List.chain'_cons.mp hchain).1
    have hchain' : List.Chain' (· <+: ·) (s1 :: rest) := (List.chain'_cons.mp hchain).2
    have hstep : convertEventToStreamParts
        (OEvent.messagePartUpdated (.text id sid mid s1 false false) none) st =
        ((if s1 = st.lastTextContent then []
          else [StreamPart.textDelta id (s1.drop st.lastTextContent.length)]),
         { st with lastTextContent := s1 }) := by
      simp only [convertEventToStreamParts, handlePartUpdated, Part.messageID]
      rw [if_neg hrole, if_neg (by simp : ¬ (false = true ∨ false = true))]
      exact handleTextPart_snapshot_step id s1 st h1 h2 hpre
    have ihapp := ih { st with lastTextContent := s1 } h1 h2 hrole hchain'
    simp only [List.map_cons, convertEvents, hstep]
    rw [List.getLastD_cons]
    by_cases heq : s1 = st.lastTextContent
    · subst heq
      simpa using ihapp
    · rw [if_neg heq, concatTextDeltas_append]
      obtain ⟨u, hu⟩ := hpre
      have hdrop : s1.drop st.lastTextContent.length = u := by
        rw [← hu, List.drop_left]
      simp only [concatTextDeltas, hdrop, List.append_nil]
      rw [← List.append_assoc, hu]
      exact ihapp

lemma text_chain_from_start (id sid mid : String) (ss : List (List Char))
    (hchain : List.Chain' (· <+: ·) ss) :
    concatTextDeltas (convertEvents (ss.map fun s =>
        OEvent.messagePartUpdated (.text id sid mid s false false) none)
        createStreamState).1 = ss.getLastD [] := by
  cases ss with
  | nil => rfl
  | cons s1 rest =>
    have hstep : convertEventToStreamParts
        (OEvent.messagePartUpdated (.text id sid mid s1 false false) none)
        createStreamState =
        ([StreamPart.textStart id] ++ (if s1 = [] then [] else [StreamPart.textDelta id s1]),
         { createStreamState with
            textStarted := true, textPartId := some id, lastTextContent := s1 }) := by
      simp only [convertEventToStreamParts, handlePartUpdated, Part.messageID]
      rw [if_neg (by simp [createStreamState] :
            ¬ createStreamState.messageRoles mid = some Role.user),
        if_neg (by simp : ¬ (false = true ∨ false = true))]
      exact handleTextPart_fresh id s1 createStreamState rfl
    have ihapp := convert_text_chain id sid mid rest
      { createStreamState with
          textStarted := true, textPartId := some id, lastTextContent := s1 }
      rfl rfl (by simp [createStreamState]) hchain
    simp only [List.map_cons, convertEvents, hstep]
    rw [List.getLastD_cons, concatTextDeltas_append, concatTextDeltas_append]
    by_cases hs : s1 = []
    · subst hs
      simpa using ihapp
    · rw [if_neg hs]
      simp only [concatTextDeltas, List.append_nil, List.nil_append]
      exact ihapp

lemma concatReasoningDeltas_append (a b : List StreamPart) :
    concatReasoningDeltas (a ++ b) = concatReasoningDeltas a ++ concatReasoningDeltas b := by
  induction a with
  | nil => rfl
  | cons p ps ih => cases p <;> simp [concatReasoningDeltas, ih]

lemma handleReasoningPart_snapshot_step (id : String) (s : List Char) (st : StreamState)
    (h1 : st.reasoningStarted = true) (h2 : st.reasoningPartId = some id)
    (hpre : st.lastReasoningContent <+: s) :
    handleReasoningPart id s none st =
      ((if s = st.lastReasoningContent then []
        else [StreamPart.reasoningDelta id (s.drop st.lastReasoningContent.length)]),
       { st with lastReasoningContent := s }) := by
  have hne : ¬ (st.reasoningStarted = false ∨ st.reasoningPartId ≠ some id) := by simp [h1, h2]
  simp only [handleReasoningPart, if_neg hne, optTruthy, Bool.false_eq_true, if_false]
  by_cases heq : s = st.lastReasoningContent
  · subst heq
    simp
  · have hsne : s ≠ [] := by
      rintro rfl
      exact heq (List.prefix_nil.mp hpre).symm
    obtain ⟨u, hu⟩ := hpre
    have hdrop : s.drop st.lastReasoningContent.length = u := by
      rw [← hu, List.drop_left]
    have hune : u ≠ [] := by
      rintro rfl
      simp at hu
      exact heq hu.symm
    simp [heq, hsne, hdrop, hune]

lemma handleReasoningPart_fresh (id : String) (s : List Char) (st : StreamState)
    (h1 : st.reasoningStarted = false) :
    handleReasoningPart id s none st =
      ([StreamPart.reasoningStart id] ++ (if s = [] then [] else [StreamPart.reasoningDelta id s]),
       { st with reasoningStarted := true, reasoningPartId := some id, lastReasoningContent := s }) := by
  have hc : st.reasoningStarted = false ∨ st.reasoningPartId ≠ some id := Or.inl h1
  have hnend : ¬ (st.reasoningStarted = true ∧ strOptTruthy st.reasoningPartId = true ∧
      st.reasoningPartId ≠ some id) := by simp [h1]
  simp only [handleReasoningPart, if_pos hc, if_neg hnend, optTruthy, Bool.false_eq_true, if_false]
  by_cases hs : s = []
  · subst hs; simp
  · simp [hs, List.drop_zero]

lemma convert_reasoning_chain (id sid mid : String) (ss : List (List Char)) (st : StreamState)
    (h1 : st.reasoningStarted = true) (h2 : st.reasoningPartId = some id)
    (hrole : st.messageRoles mid ≠ some Role.user)
    (hchain : List.Chain' (· <+: ·) (st.lastReasoningContent :: ss)) :
    st.lastReasoningContent ++
        concatReasoningDeltas (convertEvents (ss.map fun s =>
          OEvent.messagePartUpdated (.reasoning id sid mid s) none) st).1 =
      ss.getLastD st.lastReasoningContent := by
  induction ss generalizing st with
  | nil => simp [convertEvents, concatReasoningDeltas]
  | cons s1 rest ih =>
    have hpre : st.lastReasoningContent <+: s1 := (List.chain'_cons.mp hchain).1
    have hchain' : List.Chain' (· <+: ·) (s1 :: rest) := (List.chain'_cons.mp hchain).2
    have hstep : convertEventToStreamParts
        (OEvent.messagePartUpdated (.reasoning id sid mid s1) none) st =
        ((if s1 = st.lastReasoningContent then []
          else [StreamPart.reasoningDelta id (s1.drop st.lastReasoningContent.length)]),
         { st with lastReasoningContent := s1 }) := by
      simp only [convertEventToStreamParts, handlePartUpdated, Part.messageID]
      rw [if_neg hrole]
      exact handleReasoningPart_snapshot_step id s1 st h1 h2 hpre
    have ihapp := ih { st with lastReasoningContent := s1 } h1 h2 hrole hchain'
    simp only [List.map_cons, convertEvents, hstep]
    rw [List.getLastD_cons]
    by_cases heq : s1 = st.lastReasoningContent
    · subst heq
      simpa using ihapp
    · rw [if_neg heq, concatReasoningDeltas_append]
      obtain ⟨u, hu⟩ := hpre
      have hdrop : s1.drop st.lastReasoningContent.length = u := by
        rw [← hu, List.drop_left]
      simp only [concatReasoningDeltas, hdrop, List.append_nil]
      rw [← List.append_assoc, hu]
      exact ihapp

lemma reasoning_chain_from_start (id sid mid : String) (ss : List (List Char))
    (hchain : List.Chain' (· <+: ·) ss) :
    concatReasoningDeltas (convertEvents (ss.map fun s =>
        OEvent.messagePartUpdated (.reasoning id sid mid s) none)
        createStreamState).1 = ss.getLastD [] := by
  cases ss with
  | nil => rfl
  | cons s1 rest =>
    have hstep : convertEventToStreamParts
        (OEvent.messagePartUpdated (.reasoning id sid mid s1) none)
        createStreamState =
        ([StreamPart.reasoningStart id] ++ (if s1 = [] then [] else [StreamPart.reasoningDelta id s1]),
         { createStreamState with
            reasoningStarted := true, reasoningPartId := some id, lastReasoningContent := s1 }) := by
      simp only [convertEventToStreamParts, handlePartUpdated, Part.messageID]
      rw [if_neg (by simp [createStreamState] :
            ¬ createStreamState.messageRoles mid = some Role.user)]
      exact handleReasoningPart_fresh id s1 createStreamState rfl
    have ihapp := convert_reasoning_chain id sid mid rest
      { createStreamState with
          reasoningStarted := true, reasoningPartId := some id, lastReasoningContent := s1 }
      rfl rfl (by simp [createStreamState]) hchain
    simp only [List.map_cons, convertEvents, hstep]
    rw [List.getLastD_cons, concatReasoningDeltas_append, concatReasoningDeltas_append]
    by_cases hs : s1 = []
    · subst hs
      simpa using ihapp
    · rw [if_neg hs]
      simp only [concatReasoningDeltas, List.append_nil, List.nil_append]
      exact ihapp

lemma scanSpans_append (t r : Option String) (a b : List StreamPart) :
    scanSpans t r (a ++ b) =
      (scanSpans t r a).bind fun p => scanSpans p.1 p.2 b := by
  induction a generalizing t r with
  | nil => rfl
  | cons p ps ih =>
    cases p <;> simp only [scanSpans, List.cons_append] <;>
      first
        | (split_ifs <;> simp [ih])
        | simp [ih, List.append_eq]

lemma scanSpans_neutral (t r : Option String) (l : List StreamPart)
    (h : ∀ p ∈ l, spanNeutral p = true) : scanSpans t r l = some (t, r) := by
  induction l with
  | nil => rfl
  | cons p ps ih =>
    have hp := h p (by simp)
    have hps : ∀ q ∈ ps, spanNeutral q = true := fun q hq => h q (by simp [hq])
    cases p <;> simp [spanNeutral] at hp ⊢ <;> exact ih hps

lemma handleToolPart_neutral (c n : String) (ts : ToolState) (st : StreamState) :
    ∀ p ∈ (handleToolPart c n ts st).1, spanNeutral p = true := by
  rcases hts : st.toolStates c with _ | ss <;>
    cases ts <;> simp only [handleToolPart, hts] <;> split_ifs <;>
      simp_all [spanNeutral]

lemma handleTextPart_wf (id : String) (text : List Char) (delta : Option (List Char))
    (r : Option String) (st : StreamState)
    (hgood : st.textStarted = true → ∃ i, st.textPartId = some i ∧ i ≠ "") :
    scanSpans (if st.textStarted = true then st.textPartId else none) r
        (handleTextPart id text delta st).1 = some (some id, r) ∧
    (handleTextPart id text delta st).2.textStarted = true ∧
    (handleTextPart id text delta st).2.textPartId = some id ∧
    (handleTextPart id text delta st).2.reasoningStarted = st.reasoningStarted ∧
    (handleTextPart id text delta st).2.reasoningPartId = st.reasoningPartId := by
  cases hsb : st.textStarted with
  | true =>
    obtain ⟨i, hi, hine⟩ := hgood hsb
    have hscan : (if true = true then st.textPartId else none) =
        st.textPartId := if_pos rfl
    rw [hscan]
    by_cases hsame : st.textPartId = some id
    · have hc1 : ¬ (st.textStarted = false ∨ st.textPartId ≠ some id) := by
        simp [hsb, hsame]
      simp only [handleTextPart, if_neg hc1]
      split_ifs with h1 h2 h3 <;>
        exact ⟨by simp [scanSpans, hsame], by simp [hsb], by simpa using hsame,
          by simp, by simp⟩
    · have hc1 : st.textStarted = false ∨ st.textPartId ≠ some id := Or.inr hsame
      have hend : st.textStarted = true ∧ strOptTruthy st.textPartId = true ∧
          st.textPartId ≠ some id := ⟨hsb, by simp [hi, strOptTruthy, hine], hsame⟩
      simp only [handleTextPart, if_pos hc1, if_pos hend]
      split_ifs with h1 h2 h3 <;>
        exact ⟨by simp [scanSpans, hi], by simp, by simp, by simp, by simp⟩
  | false =>
    have hscan : (if false = true then st.textPartId else none) = none :=
      if_neg (by simp)
    rw [hscan]
    have hc1 : st.textStarted = false ∨ st.textPartId ≠ some id := Or.inl hsb
    have hnend : ¬ (st.textStarted = true ∧ strOptTruthy st.textPartId = true ∧
        st.textPartId ≠ some id) := by simp [hsb]
    simp only [handleTextPart, if_pos hc1, if_neg hnend]
    split_ifs with h1 h2 h3 <;>
      exact ⟨by simp [scanSpans], by simp, by simp, by simp, by simp⟩

lemma handleReasoningPart_wf (id : String) (text : List Char) (delta : Option (List Char))
    (t : Option String) (st : StreamState)
    (hgood : st.reasoningStarted = true → ∃ i, st.reasoningPartId = some i ∧ i ≠ "") :
    scanSpans t (if st.reasoningStarted = true then st.reasoningPartId else none)
        (handleReasoningPart id text delta st).1 = some (t, some id) ∧
    (handleReasoningPart id text delta st).2.reasoningStarted = true ∧
    (handleReasoningPart id text delta st).2.reasoningPartId = some id ∧
    (handleReasoningPart id text delta st).2.textStarted = st.textStarted ∧
    (handleReasoningPart id text delta st).2.textPartId = st.textPartId := by
  cases hsb : st.reasoningStarted with
  | true =>
    obtain ⟨i, hi, hine⟩ := hgood hsb
    have hscan : (if true = true then st.reasoningPartId else none) =
        st.reasoningPartId := if_pos rfl
    rw [hscan]
    by_cases hsame : st.reasoningPartId = some id
    · have hc1 : ¬ (st.reasoningStarted = false ∨ st.reasoningPartId ≠ some id) := by
        simp [hsb, hsame]
      simp only [handleReasoningPart, if_neg hc1]
      split_ifs with h1 h2 h3 <;>
        exact ⟨by simp [scanSpans, hsame], by simp [hsb], by simpa using hsame,
          by simp, by simp⟩
    · have hc1 : st.reasoningStarted = false ∨ st.reasoningPartId ≠ some id := Or.inr hsame
      have hend : st.reasoningStarted = true ∧ strOptTruthy st.reasoningPartId = true ∧
          st.reasoningPartId ≠ some id := ⟨hsb, by simp [hi, strOptTruthy, hine], hsame⟩
      simp only [handleReasoningPart, if_pos hc1, if_pos hend]
      split_ifs with h1 h2 h3 <;>
        exact ⟨by simp [scanSpans, hi], by simp, by simp, by simp, by simp⟩
  | false =>
    have hscan : (if false = true then st.reasoningPartId else none) = none :=
      if_neg (by simp)
    rw [hscan]
    have hc1 : st.reasoningStarted = false ∨ st.reasoningPartId ≠ some id := Or.inl hsb
    have hnend : ¬ (st.reasoningStarted = true ∧ strOptTruthy st.reasoningPartId = true ∧
        st.reasoningPartId ≠ some id) := by simp [hsb]
    simp only [handleReasoningPart, if_pos hc1, if_neg hnend]
    split_ifs with h1 h2 h3 <;>
      exact ⟨by simp [scanSpans], by simp, by simp, by simp, by simp⟩

lemma convert_wf (e : OEvent) (st : StreamState) (hgood : eventHasGoodIds e = true)
    (hst : stateGood st) :
    scanSpans (spanView st).1 (spanView st).2 (convertEventToStreamParts e st).1 =
      some (spanView (convertEventToStreamParts e st).2) ∧
    stateGood (convertEventToStreamParts e st).2 := by
  obtain ⟨hstT, hstR⟩ := hst
  cases e with
  | messagePartUpdated part delta =>
    cases part with
    | text id psid pmid ptext syn ign =>
      simp only [convertEventToStreamParts, handlePartUpdated]
      by_cases hrole : st.messageRoles (Part.text id psid pmid ptext syn ign).messageID =
          some Role.user
      · simp only [if_pos hrole]
        exact ⟨rfl, hstT, hstR⟩
      · simp only [if_neg hrole]
        by_cases hskip : syn = true ∨ ign = true
        · simp only [if_pos hskip]
          exact ⟨rfl, hstT, hstR⟩
        · simp only [if_neg hskip]
          have hidne : id ≠ "" := by simpa [eventHasGoodIds] using hgood
          obtain ⟨hscan2, hts, hpi, hrs, hrp⟩ :=
            handleTextPart_wf id ptext delta (spanView st).2 st hstT
          refine ⟨?_, ?_, ?_⟩
          · rw [show (spanView st).1 =
                (if st.textStarted = true then st.textPartId else none) from rfl]
            rw [hscan2]
            simp [spanView, hts, hpi, hrs, hrp]
          · intro _
            exact ⟨id, hpi, hidne⟩
          · intro hr
            rw [hrs] at hr
            rw [hrp]
            exact hstR hr
    | reasoning id psid pmid ptext =>
      simp only [convertEventToStreamParts, handlePartUpdated]
      by_cases hrole : st.messageRoles (Part.reasoning id psid pmid ptext).messageID =
          some Role.user
      · simp only [if_pos hrole]
        exact ⟨rfl, hstT, hstR⟩
      · simp only [if_neg hrole]
        have hidne : id ≠ "" := by simpa [eventHasGoodIds] using hgood
        obtain ⟨hscan2, hts, hpi, hrs, hrp⟩ :=
          handleReasoningPart_wf id ptext delta (spanView st).1 st hstR
        refine ⟨?_, ?_, ?_⟩
        · rw [show (spanView st).2 =
              (if st.reasoningStarted = true then st.reasoningPartId else none) from rfl]
          rw [hscan2]
          simp [spanView, hts, hpi, hrs, hrp]
        · intro ht
          rw [hrs] at ht
          rw [hrp]
          exact hstT ht
        · intro _
          exact ⟨id, hpi, hidne⟩
    | tool pid psid pmid callID toolName ts =>
      simp only [convertEventToStreamParts, handlePartUpdated]
      by_cases hrole : st.messageRoles (Part.tool pid psid pmid callID toolName ts).messageID =
          some Role.user
      · simp only [if_pos hrole]
        exact ⟨rfl, hstT, hstR⟩
      · simp only [if_neg hrole]
        have hneutral := handleToolPart_neutral callID toolName ts st
        have hroles : (handleToolPart callID toolName ts st).2.textStarted = st.textStarted ∧
            (handleToolPart callID toolName ts st).2.textPartId = st.textPartId ∧
            (handleToolPart callID toolName ts st).2.reasoningStarted = st.reasoningStarted ∧
            (handleToolPart callID toolName ts st).2.reasoningPartId = st.reasoningPartId := by
          rcases hts2 : st.toolStates callID with _ | ss <;>
            cases ts <;> simp only [handleToolPart, hts2] <;> split_ifs <;>
              exact ⟨rfl, rfl, rfl, rfl⟩
        refine ⟨?_, ?_, ?_⟩
        · rw [scanSpans_neutral _ _ _ hneutral]
          simp [spanView, hroles.1, hroles.2.1, hroles.2.2.1, hroles.2.2.2]
        · intro ht
          rw [hroles.1] at ht
          rw [hroles.2.1]
          exact hstT ht
        · intro hr
          rw [hroles.2.2.1] at hr
          rw [hroles.2.2.2]
          exact hstR hr
    | stepFinish a b c d e2 f g h i2 j =>
      simp only [convertEventToStreamParts, handlePartUpdated]
      split_ifs <;> exact ⟨rfl, hstT, hstR⟩
    | stepStart a b c =>
      simp only [convertEventToStreamParts, handlePartUpdated]
      split_ifs <;> exact ⟨rfl, hstT, hstR⟩
    | file a b c d e2 f =>
      simp only [convertEventToStreamParts, handlePartUpdated]
      split_ifs <;> exact ⟨rfl, hstT, hstR⟩
    | other a b c =>
      simp only [convertEventToStreamParts, handlePartUpdated]
      split_ifs <;> exact ⟨rfl, hstT, hstR⟩
  | messageUpdated id s role en f =>
    exact ⟨rfl, hstT, hstR⟩
  | sessionStatus s st2 => exact ⟨rfl, hstT, hstR⟩
  | sessionIdle s => exact ⟨rfl, hstT, hstR⟩
  | sessionDiff => exact ⟨rfl, hstT, hstR⟩
  | unknownEvent ty => exact ⟨rfl, hstT, hstR⟩

lemma convert_events_wf (es : List OEvent) (st : StreamState)
    (hgood : ∀ e ∈ es, eventHasGoodIds e = true) (hst : stateGood st) :
    scanSpans (spanView st).1 (spanView st).2 (convertEvents es st).1 =
      some (spanView (convertEvents es st).2) ∧
    stateGood (convertEvents es st).2 := by
  induction es generalizing st with
  | nil => exact ⟨rfl, hst⟩
  | cons e es ih =>
    obtain ⟨h1, h2⟩ := convert_wf e st (hgood e (by simp)) hst
    obtain ⟨h3, h4⟩ := ih (convertEventToStreamParts e st).2
      (fun q hq => hgood q (by simp [hq])) h2
    simp only [convertEvents]
    rw [scanSpans_append, h1]
    exact ⟨by simpa using h3, h4⟩

lemma createFinishParts_wf (st : StreamState) (hst : stateGood st)
    (reason : FinishReason) (sid : String) :
    scanSpans (spanView st).1 (spanView st).2 (createFinishParts st reason sid) =
      some (none, none) := by
  obtain ⟨hstT, hstR⟩ := hst
  cases hts : st.textStarted with
  | true =>
    obtain ⟨i, hi, hine⟩ := hstT hts
    cases hrs : st.reasoningStarted with
    | true =>
      obtain ⟨j, hj, hjne⟩ := hstR hrs
      simp [createFinishParts, spanView, hts, hrs, hi, hj, strOptTruthy, hine, hjne,
        scanSpans]
    | false =>
      simp [createFinishParts, spanView, hts, hrs, hi, strOptTruthy, hine, scanSpans]
  | false =>
    cases hrs : st.reasoningStarted with
    | true =>
      obtain ⟨j, hj, hjne⟩ := hstR hrs
      simp [createFinishParts, spanView, hts, hrs, hj, strOptTruthy, hjne, scanSpans]
    | false =>
      simp [createFinishParts, spanView, hts, hrs, scanSpans]

/-! ## Claim theorems -/

/-- C4.  Finish-reason classification: the classifier maps an absent
descriptor to unknown; a present error classifies by error name
(case-sensitive, abort to stop, output-length to length, everything else to
error) and takes precedence over a finish string; otherwise the finish
string classifies case-insensitively through the spec table with stop as the
permissive default, also when neither error nor finish is present. -/
theorem c4_finish_classification (m : Option MessageInfo) :
    mapOpencodeFinishReason m = finishClassificationSpec m := by
  rcases m with _ | ⟨err, fin⟩
  · rfl
  rcases err with _ | e
  · rcases fin with _ | f
    · rfl
    · by_cases hf : f = ""
      · subst hf; decide
      · simp only [mapOpencodeFinishReason, finishClassificationSpec, if_neg, hf,
          mapFinishToReason, List.mem_cons, List.mem_singleton, List.not_mem_nil,
          or_false, ne_eq, not_false_iff, if_true]
  · simp only [mapOpencodeFinishReason, finishClassificationSpec,
      mapErrorToFinishReason_eq]

/-- C5.  User-fragment suppression: a part-updated event whose fragment's
owning message id was recorded with role user produces zero outbound events
and leaves the state untouched. -/
theorem c5_user_fragment_suppression (state : StreamState) (part : Part)
    (delta : Option (List Char))
    (h : state.messageRoles part.messageID = some Role.user) :
    convertEventToStreamParts (.messagePartUpdated part delta) state = ([], state) := by
  simp [convertEventToStreamParts, handlePartUpdated, h]

/-- C5 witness: after a message-updated event tags message m1 with role
user, a text fragment owned by m1 is suppressed. -/
theorem c5_user_fragment_suppression_witness :
    (convertEventToStreamParts
        (.messageUpdated "m1" "ses" Role.user none none) createStreamState).2.messageRoles
        (Part.messageID (.text "t1" "ses" "m1" ['H', 'i'] false false)) = some Role.user ∧
    convertEventToStreamParts
        (.messagePartUpdated (.text "t1" "ses" "m1" ['H', 'i'] false false) none)
        (convertEventToStreamParts
          (.messageUpdated "m1" "ses" Role.user none none) createStreamState).2 =
      ([], (convertEventToStreamParts
          (.messageUpdated "m1" "ses" Role.user none none) createStreamState).2) := by
  refine ⟨by decide, ?_⟩
  exact c5_user_fragment_suppression _ _ _ (by decide)

/-- C10.  No empty deltas: every text-delta, reasoning-delta and
tool-input-delta the translator emits carries a non-empty delta, and an
inbound event whose explicit delta is the empty string is treated exactly
like an event carrying no delta. -/
theorem c10_no_empty_deltas :
    (∀ (state : StreamState) (e : OEvent),
      noEmptyDeltas (convertEventToStreamParts e state).1 = true) ∧
    (∀ (state : StreamState) (part : Part),
      convertEventToStreamParts (.messagePartUpdated part (some [])) state =
        convertEventToStreamParts (.messagePartUpdated part none) state) := by
  constructor
  · intro state e
    exact noEmptyDeltas_convert e state
  · intro state part
    rfl

/-- C8.  Correlator totality: `isEventForSession` is total on every
event object (it returns a boolean for any field list, however malformed),
but `isSessionComplete` is right-claimed yet not total in the code: the
well-typed event with tag session.idle and null properties makes the
unguarded `properties.sessionID` access throw a TypeError. -/
theorem c8_correlator_totality :
    (∀ (fields : List (String × Json)) (sessionId : String),
      ∃ b, isEventForSession (.obj fields) sessionId = Except.ok b) ∧
    isSessionComplete
        (.obj [("type", .str "session.idle"), ("properties", .null)]) "s1" =
      Except.error () := by
  refine ⟨isEventForSession_obj_total, ?_⟩
  rfl

/-- C3.  Tool latch idempotence: feeding the same terminal tool state twice
for one call id yields at most one tool-call and at most one tool-result
event in total, and the replay re-emits nothing at all. -/
theorem c3_tool_latch_idempotence (state : StreamState)
    (id sid mid callID toolName : String) (ts : ToolState)
    (delta : Option (List Char)) (hterm : ts.isTerminal = true) :
    countToolCalls
        ((convertEventToStreamParts
            (.messagePartUpdated (.tool id sid mid callID toolName ts) delta) state).1 ++
          (convertEventToStreamParts
            (.messagePartUpdated (.tool id sid mid callID toolName ts) delta)
            (convertEventToStreamParts
              (.messagePartUpdated (.tool id sid mid callID toolName ts) delta) state).2).1) ≤ 1 ∧
    countToolResults
        ((convertEventToStreamParts
            (.messagePartUpdated (.tool id sid mid callID toolName ts) delta) state).1 ++
          (convertEventToStreamParts
            (.messagePartUpdated (.tool id sid mid callID toolName ts) delta)
            (convertEventToStreamParts
              (.messagePartUpdated (.tool id sid mid callID toolName ts) delta) state).2).1) ≤ 1 ∧
    (convertEventToStreamParts
        (.messagePartUpdated (.tool id sid mid callID toolName ts) delta)
        (convertEventToStreamParts
          (.messagePartUpdated (.tool id sid mid callID toolName ts) delta) state).2).1 = [] := by
  simp only [convertEventToStreamParts, handlePartUpdated]
  by_cases hrole : state.messageRoles
      (Part.tool id sid mid callID toolName ts).messageID = some Role.user
  · simp [hrole, countToolCalls, countToolResults]
  · simp only [hrole, if_false, if_neg hrole]
    have hrole2 : (handleToolPart callID toolName ts state).2.messageRoles
        (Part.tool id sid mid callID toolName ts).messageID ≠ some Role.user := by
      rw [handleToolPart_messageRoles]; exact hrole
    simp only [if_neg hrole2]
    obtain ⟨ss', hss', hc1, hc2, hc3⟩ :=
      handleToolPart_terminal_sets callID toolName ts state hterm
    have hempty : (handleToolPart callID toolName ts
        (handleToolPart callID toolName ts state).2).1 = [] :=
      handleToolPart_terminal_latched _ _ _ _ _ hterm hss' hc1 hc2 hc3
    rw [hempty]
    have hcounts := handleToolPart_counts callID toolName ts state
    simp [countToolCalls, countToolResults, List.countP_append]
    exact ⟨by simpa [countToolCalls] using hcounts.1,
      by simpa [countToolResults] using hcounts.2⟩

/-- C3 witness: a concrete completed tool state replayed twice from the
initial state. -/
theorem c3_tool_latch_idempotence_witness :
    ToolState.isTerminal (.completed ['k'] (some ['o']) ['t'] 0 1) = true ∧
    (countToolCalls
        ((convertEventToStreamParts
            (.messagePartUpdated
              (.tool "p1" "ses" "m1" "c1" "bash"
                (.completed ['k'] (some ['o']) ['t'] 0 1)) none) createStreamState).1 ++
          (convertEventToStreamParts
            (.messagePartUpdated
              (.tool "p1" "ses" "m1" "c1" "bash"
                (.completed ['k'] (some ['o']) ['t'] 0 1)) none)
            (convertEventToStreamParts
              (.messagePartUpdated
                (.tool "p1" "ses" "m1" "c1" "bash"
                  (.completed ['k'] (some ['o']) ['t'] 0 1)) none) createStreamState).2).1) ≤ 1 ∧
      countToolResults
        ((convertEventToStreamParts
            (.messagePartUpdated
              (.tool "p1" "ses" "m1" "c1" "bash"
                (.completed ['k'] (some ['o']) ['t'] 0 1)) none) createStreamState).1 ++
          (convertEventToStreamParts
            (.messagePartUpdated
              (.tool "p1" "ses" "m1" "c1" "bash"
                (.completed ['k'] (some ['o']) ['t'] 0 1)) none)
            (convertEventToStreamParts
              (.messagePartUpdated
                (.tool "p1" "ses" "m1" "c1" "bash"
                  (.completed ['k'] (some ['o']) ['t'] 0 1)) none) createStreamState).2).1) ≤ 1 ∧
      (convertEventToStreamParts
          (.messagePartUpdated
            (.tool "p1" "ses" "m1" "c1" "bash"
              (.completed ['k'] (some ['o']) ['t'] 0 1)) none)
          (convertEventToStreamParts
            (.messagePartUpdated
              (.tool "p1" "ses" "m1" "c1" "bash"
                (.completed ['k'] (some ['o']) ['t'] 0 1)) none) createStreamState).2).1 = []) :=
  ⟨rfl, c3_tool_latch_idempotence createStreamState "p1" "ses" "m1" "c1" "bash"
    (.completed ['k'] (some ['o']) ['t'] 0 1) none rfl⟩

/-- C6.  Tool input streaming on running state: the last-seen serialization
is updated to the current serialized input unconditionally, and whenever the
current serialization strictly extends the non-empty last-seen serialization
the emitted tool-input-delta events are exactly one delta carrying the new
suffix. -/
theorem c6_tool_input_streaming (state : StreamState) (callID toolName : String)
    (input : List Char) (title : Option (List Char)) (t0 : Nat) :
    ((handleToolPart callID toolName (.running input title t0) state).2.toolStates callID).map
        ToolStreamState.lastInput = some (some input) ∧
    (∀ (ss : ToolStreamState) (t : List Char),
      state.toolStates callID = some ss → ss.lastInput = some t → t ≠ [] →
      t <+: input → t ≠ input →
      filterToolInputDeltas
          (handleToolPart callID toolName (.running input title t0) state).1 =
        [.toolInputDelta callID (input.drop t.length)] ∧
      input.drop t.length ≠ []) := by
  constructor
  · rcases hts : state.toolStates callID with _ | ss <;>
      simp only [handleToolPart, hts] <;> split_ifs <;> simp [setToolState]
  · intro ss t hss hlast hne hpre hneq
    have hdrop : input.drop t.length ≠ [] := by
      obtain ⟨u, rfl⟩ := hpre
      rw [List.drop_left]
      rintro rfl
      simp at hneq
    refine ⟨?_, hdrop⟩
    have htruthy : optTruthy ss.lastInput = true := by
      simp [optTruthy, hlast, hne]
    have hprefix : ((ss.lastInput.getD []).isPrefixOf input) = true := by
      simp [hlast, List.isPrefixOf_iff_prefix, hpre]
    simp only [handleToolPart, hss]
    split_ifs with h1 <;>
      simp_all [filterToolInputDeltas, List.filter_append, optTruthy, hlast]

/-- C6 witness: after a first running snapshot with serialized input a, a
second running snapshot with serialized input ab emits exactly the suffix b
and updates the last-seen serialization. -/
theorem c6_tool_input_streaming_witness :
    ((handleToolPart "c1" "bash" (.running ['a', 'b'] none 0)
        (handleToolPart "c1" "bash" (.running ['a'] none 0)
          createStreamState).2).2.toolStates "c1").map ToolStreamState.lastInput =
      some (some ['a', 'b']) ∧
    (handleToolPart "c1" "bash" (.running ['a'] none 0)
        createStreamState).2.toolStates "c1" =
      some ⟨"c1", "bash", true, false, false, false, some ['a']⟩ ∧
    (['a'] : List Char) ≠ [] ∧ (['a'] : List Char) <+: ['a', 'b'] ∧
    (['a'] : List Char) ≠ ['a', 'b'] ∧
    filterToolInputDeltas
        (handleToolPart "c1" "bash" (.running ['a', 'b'] none 0)
          (handleToolPart "c1" "bash" (.running ['a'] none 0)
            createStreamState).2).1 =
      [.toolInputDelta "c1" ['b']] :=
  ⟨(c6_tool_input_streaming
      (handleToolPart "c1" "bash" (.running ['a'] none 0) createStreamState).2
      "c1" "bash" ['a', 'b'] none 0).1,
   rfl, by decide, by decide, by decide,
   ((c6_tool_input_streaming
      (handleToolPart "c1" "bash" (.running ['a'] none 0) createStreamState).2
      "c1" "bash" ['a', 'b'] none 0).2
      ⟨"c1", "bash", true, false, false, false, some ['a']⟩ ['a']
      rfl rfl (by decide) (by decide) (by decide)).1⟩

/-- C9.  Usage accounting: a sequence of step-accounting fragments produces
zero outbound events while accumulating every token and cost field, and the
single finish event reports outputTokens.total as the sum of the step output
counts and inputTokens.total as the sum of the accumulated non-cache input,
cache-read and cache-write tokens. -/
theorem c9_usage_accounting (steps : List StepTokens) (reason : FinishReason)
    (sid : String) :
    (convertEvents (steps.map stepEvent) createStreamState).1 = [] ∧
    createFinishParts (convertEvents (steps.map stepEvent) createStreamState).2 reason sid =
      [StreamPart.finish
        { inputTotal := (steps.map StepTokens.input).sum +
            (steps.map StepTokens.cacheRead).sum + (steps.map StepTokens.cacheWrite).sum
          inputNoCache := (steps.map StepTokens.input).sum
          inputCacheRead := (steps.map StepTokens.cacheRead).sum
          inputCacheWrite := (steps.map StepTokens.cacheWrite).sum
          outputTotal := (steps.map StepTokens.output).sum
          outputText := none
          outputReasoning := (steps.map StepTokens.reasoning).sum
          rawTotalCost := (steps.map StepTokens.cost).sum }
        reason sid ((steps.map StepTokens.cost).sum)] := by
  rw [convert_steps steps createStreamState rfl]
  constructor
  · rfl
  · simp [createFinishParts, createStreamState, strOptTruthy]

/-- C7 (amended).  Non-superset snapshot safety: a text or reasoning event
carrying no explicit delta and a full-text snapshot that is not a superset
of the accumulated text and does not exceed it in length emits nothing and
leaves the state unchanged (the computed suffix is empty); a longer
non-superset snapshot instead emits the snapshot's suffix beyond the
accumulated length, as witnessed by the counterexample. -/
theorem c7_non_superset_snapshot_safety :
    (∀ (state : StreamState) (id sid mid : String) (s : List Char),
      state.textStarted = true → state.textPartId = some id →
      ¬ state.lastTextContent <+: s → s.length ≤ state.lastTextContent.length →
      convertEventToStreamParts
          (.messagePartUpdated (.text id sid mid s false false) none) state =
        ([], state)) ∧
    (∀ (state : StreamState) (id sid mid : String) (s : List Char),
      state.reasoningStarted = true → state.reasoningPartId = some id →
      ¬ state.lastReasoningContent <+: s → s.length ≤ state.lastReasoningContent.length →
      convertEventToStreamParts
          (.messagePartUpdated (.reasoning id sid mid s) none) state =
        ([], state)) := by
  constructor
  · intro state id sid mid s ht hid hnp hlen
    simp only [convertEventToStreamParts, handlePartUpdated]
    by_cases hrole : state.messageRoles
        (Part.text id sid mid s false false).messageID = some Role.user
    · simp [hrole]
    · rw [if_neg hrole, if_neg (by simp : ¬ (false = true ∨ false = true))]
      have hne : ¬ (state.textStarted = false ∨ state.textPartId ≠ some id) := by
        simp [ht, hid]
      simp only [handleTextPart, if_neg hne, optTruthy, Bool.false_eq_true, if_false]
      by_cases hcond : s ≠ [] ∧ s ≠ state.lastTextContent
      · have hdrop : s.drop state.lastTextContent.length = [] :=
          List.drop_eq_nil_of_le hlen
        simp [hcond, hdrop]
      · simp [hcond]
  · intro state id sid mid s ht hid hnp hlen
    simp only [convertEventToStreamParts, handlePartUpdated]
    by_cases hrole : state.messageRoles
        (Part.reasoning id sid mid s).messageID = some Role.user
    · simp [hrole]
    · rw [if_neg hrole]
      have hne : ¬ (state.reasoningStarted = false ∨ state.reasoningPartId ≠ some id) := by
        simp [ht, hid]
      simp only [handleReasoningPart, if_neg hne, optTruthy, Bool.false_eq_true, if_false]
      by_cases hcond : s ≠ [] ∧ s ≠ state.lastReasoningContent
      · have hdrop : s.drop state.lastReasoningContent.length = [] :=
          List.drop_eq_nil_of_le hlen
        simp [hcond, hdrop]
      · simp [hcond]

/-- C7 counterexample: after the snapshot abc is accumulated, the longer
non-superset snapshot xyzw makes the translator emit the fabricated delta w
(the suffix past the accumulator length), not nothing as the claim states. -/
theorem c7_non_superset_snapshot_counterexample :
    ¬ ((['a', 'b', 'c'] : List Char) <+: ['x', 'y', 'z', 'w']) ∧
    (convertEventToStreamParts
        (.messagePartUpdated (.text "t1" "ses" "m1" ['x', 'y', 'z', 'w'] false false) none)
        (convertEvents
          [.messagePartUpdated (.text "t1" "ses" "m1" ['a', 'b', 'c'] false false) none]
          createStreamState).2).1 =
      [StreamPart.textDelta "t1" ['w']] := by
  exact ⟨by decide, by decide⟩

/-- C7 witness: after accumulating abc, the shorter non-superset snapshot xy
emits nothing and leaves the state unchanged. -/
theorem c7_non_superset_snapshot_safety_witness :
    (convertEvents
        [.messagePartUpdated (.text "t1" "ses" "m1" ['a', 'b', 'c'] false false) none]
        createStreamState).2.textStarted = true ∧
    (convertEvents
        [.messagePartUpdated (.text "t1" "ses" "m1" ['a', 'b', 'c'] false false) none]
        createStreamState).2.textPartId = some "t1" ∧
    ¬ (convertEvents
        [.messagePartUpdated (.text "t1" "ses" "m1" ['a', 'b', 'c'] false false) none]
        createStreamState).2.lastTextContent <+: ['x', 'y'] ∧
    (['x', 'y'] : List Char).length ≤
      (convertEvents
        [.messagePartUpdated (.text "t1" "ses" "m1" ['a', 'b', 'c'] false false) none]
        createStreamState).2.lastTextContent.length ∧
    convertEventToStreamParts
        (.messagePartUpdated (.text "t1" "ses" "m1" ['x', 'y'] false false) none)
        (convertEvents
          [.messagePartUpdated (.text "t1" "ses" "m1" ['a', 'b', 'c'] false false) none]
          createStreamState).2 =
      ([], (convertEvents
          [.messagePartUpdated (.text "t1" "ses" "m1" ['a', 'b', 'c'] false false) none]
          createStreamState).2) :=
  ⟨by decide, by decide, by decide, by decide,
    c7_non_superset_snapshot_safety.1 _ "t1" "ses" "m1" ['x', 'y']
      (by decide) (by decide) (by decide) (by decide)⟩

/-- C2.  Delta reconstruction: for every prefix-extension chain of full-text
snapshots fed as non-delta fragments of a single fragment id, the
concatenation of the emitted delta payloads equals the last snapshot, for
text fragments and for reasoning fragments alike. -/
theorem c2_delta_reconstruction (id sid mid : String) (ss : List (List Char))
    (hchain : List.Chain' (· <+: ·) ss) :
    concatTextDeltas (convertEvents (ss.map fun s =>
        OEvent.messagePartUpdated (.text id sid mid s false false) none)
        createStreamState).1 = ss.getLastD [] ∧
    concatReasoningDeltas (convertEvents (ss.map fun s =>
        OEvent.messagePartUpdated (.reasoning id sid mid s) none)
        createStreamState).1 = ss.getLastD [] :=
  ⟨text_chain_from_start id sid mid ss hchain,
   reasoning_chain_from_start id sid mid ss hchain⟩

/-- C2 witness: the chain H, Hi, Hi! reconstructs to Hi! on both the text
and the reasoning path. -/
theorem c2_delta_reconstruction_witness :
    List.Chain' (· <+: ·) [['H'], ['H', 'i'], ['H', 'i', '!']] ∧
    (concatTextDeltas (convertEvents ([['H'], ['H', 'i'], ['H', 'i', '!']].map fun s =>
        OEvent.messagePartUpdated (.text "t1" "ses" "m1" s false false) none)
        createStreamState).1 = [['H'], ['H', 'i'], ['H', 'i', '!']].getLastD [] ∧
     concatReasoningDeltas (convertEvents ([['H'], ['H', 'i'], ['H', 'i', '!']].map fun s =>
        OEvent.messagePartUpdated (.reasoning "t1" "ses" "m1" s) none)
        createStreamState).1 = [['H'], ['H', 'i'], ['H', 'i', '!']].getLastD []) := by
  have hchain : List.Chain' (· <+: ·) [['H'], ['H', 'i'], ['H', 'i', '!']] :=
    List.chain'_cons.mpr ⟨⟨['i'], rfl⟩,
      List.chain'_cons.mpr ⟨⟨['!'], rfl⟩, List.chain'_singleton _⟩⟩
  exact ⟨hchain,
    c2_delta_reconstruction "t1" "ses" "m1" [['H'], ['H', 'i'], ['H', 'i', '!']] hchain⟩

/-- C1 (amended).  Span well-formedness: for every inbound event sequence in
which each text and reasoning fragment carries a non-empty fragment id, the
emitted outbound events followed by the finish-construction step form a span
well-formed sequence: at most one open text span and one open reasoning span
at any point, every delta preceded by an unmatched start of the same id,
opening a new span first closes the previous one, and every span is closed
before the finish event.  An empty fragment id is JS-falsy and defeats the
close-previous and close-at-finish guards, as the counterexample shows. -/
theorem c1_span_wellformedness (es : List OEvent) (reason : FinishReason)
    (sid : String) (hgood : ∀ e ∈ es, eventHasGoodIds e = true) :
    scanSpans none none
        ((convertEvents es createStreamState).1 ++
          createFinishParts (convertEvents es createStreamState).2 reason sid) =
      some (none, none) := by
  have hstart : stateGood createStreamState :=
    ⟨by simp [createStreamState], by simp [createStreamState]⟩
  obtain ⟨h1, h2⟩ := convert_events_wf es createStreamState hgood hstart
  have h1' : scanSpans none none (convertEvents es createStreamState).1 =
      some (spanView (convertEvents es createStreamState).2) := h1
  rw [scanSpans_append, h1']
  simpa using createFinishParts_wf (convertEvents es createStreamState).2 h2 reason sid

/-- C1 counterexample: a text fragment with the empty id followed by one
with id x yields two text-start events with no intervening text-end and a
finish while the empty-id span is still open, so the scanner rejects the
output stream. -/
theorem c1_span_wellformedness_counterexample :
    scanSpans none none
        ((convertEvents
            [.messagePartUpdated (.text "" "ses" "m1" ['a'] false false) none,
             .messagePartUpdated (.text "x" "ses" "m1" ['b'] false false) none]
            createStreamState).1 ++
          createFinishParts
            (convertEvents
              [.messagePartUpdated (.text "" "ses" "m1" ['a'] false false) none,
               .messagePartUpdated (.text "x" "ses" "m1" ['b'] false false) none]
              createStreamState).2 .stop "ses") = none := by
  decide

/-- C1 witness: a concrete interleaving of text, reasoning and tool events
with non-empty ids scans as well-formed. -/
theorem c1_span_wellformedness_witness :
    (∀ e ∈ [OEvent.messagePartUpdated (.text "t1" "ses" "m1" ['a'] false false) none,
            OEvent.messagePartUpdated (.reasoning "r1" "ses" "m1" ['h']) none,
            OEvent.messagePartUpdated
              (.tool "p1" "ses" "m1" "c1" "bash" (.completed ['k'] (some ['o']) ['t'] 0 1))
              none,
            OEvent.messagePartUpdated (.text "t2" "ses" "m1" ['b'] false false) none],
      eventHasGoodIds e = true) ∧
    scanSpans none none
        ((convertEvents
            [OEvent.messagePartUpdated (.text "t1" "ses" "m1" ['a'] false false) none,
             OEvent.messagePartUpdated (.reasoning "r1" "ses" "m1" ['h']) none,
             OEvent.messagePartUpdated
               (.tool "p1" "ses" "m1" "c1" "bash" (.completed ['k'] (some ['o']) ['t'] 0 1))
               none,
             OEvent.messagePartUpdated (.text "t2" "ses" "m1" ['b'] false false) none]
            createStreamState).1 ++
          createFinishParts
            (convertEvents
              [OEvent.messagePartUpdated (.text "t1" "ses" "m1" ['a'] false false) none,
               OEvent.messagePartUpdated (.reasoning "r1" "ses" "m1" ['h']) none,
               OEvent.messagePartUpdated
                 (.tool "p1" "ses" "m1" "c1" "bash" (.completed ['k'] (some ['o']) ['t'] 0 1))
                 none,
               OEvent.messagePartUpdated (.text "t2" "ses" "m1" ['b'] false false) none]
              createStreamState).2 .stop "ses") =
      some (none, none) :=
  ⟨by decide, c1_span_wellformedness _ .stop "ses" (by decide)⟩

end Opencode
